import Mathlib

/-!
Verification of the Arize python client's core utilities
(`arize/utils/utils.py`) against its natural-language specification.

The embedding models:
* the byte-budgeted batch chunker (`num_chunks`, `bundle_records`),
* the element conversion and scalar value encoder
  (`convert_element`, `get_value_object`, `get_value_embedding`),
* the timestamp range check (`is_timestamp_in_range`),
* the schema merge (`overwrite_schema_fields`) and the delayed-schema
  classifier (`is_delayed_schema`).

Machine integers are modelled as `Nat`/`Int`; Python's
`math.ceil(a / b)` on non-negative integers is the exact ceiling
division `ceildiv`; Python exceptions (`ZeroDivisionError`,
`TypeError`) are modelled with `Option`/`Except`.

The configuration constants (`MAX_BYTES_PER_BULK_RECORD`,
`MAX_PAST_YEARS_FROM_CURRENT_TIME`,
`MAX_FUTURE_YEARS_FROM_CURRENT_TIME`) live in
`arize/utils/constants.py`, outside the sources at hand; following the
spec ("configuration constants consumed, owned by an external config
collaborator") they are taken as parameters.
-/

namespace Arize

/-- Exact ceiling division on naturals: `math.ceil(a / b)` for
non-negative integer `a` and positive integer `b`. -/
def ceildiv (a b : Nat) : Nat := (a + b - 1) / b

lemma ceildiv_zero_left (b : Nat) : ceildiv 0 b = 0 := by
  unfold ceildiv
  cases b with
  | zero => rfl
  | succ n =>
    rw [Nat.zero_add]
    exact Nat.div_eq_of_lt (by omega)

lemma ceildiv_pos {a b : Nat} (ha : 1 ≤ a) (hb : 1 ≤ b) : 1 ≤ ceildiv a b := by
  unfold ceildiv
  rw [Nat.le_div_iff_mul_le hb]
  omega

lemma le_ceildiv_mul (a : Nat) {b : Nat} (hb : 1 ≤ b) : a ≤ ceildiv a b * b := by
  unfold ceildiv
  have h := Nat.div_add_mod (a + b - 1) b
  have hm : (a + b - 1) % b < b := Nat.mod_lt _ (by omega)
  have hc : (a + b - 1) / b * b = b * ((a + b - 1) / b) := Nat.mul_comm _ _
  omega

lemma ceildiv_mul_le (a : Nat) {b : Nat} (_hb : 1 ≤ b) : ceildiv a b * b ≤ a + b - 1 := by
  unfold ceildiv
  exact Nat.div_mul_le_self (a + b - 1) b

lemma ceildiv_le_iff {a b c : Nat} (hb : 1 ≤ b) : ceildiv a b ≤ c ↔ a ≤ c * b := by
  constructor
  · intro h
    calc a ≤ ceildiv a b * b := le_ceildiv_mul a hb
    _ ≤ c * b := Nat.mul_le_mul h (Nat.le_refl b)
  · intro h
    unfold ceildiv
    have h1 : a + b - 1 ≤ b * c + (b - 1) := by
      have hcm : b * c = c * b := Nat.mul_comm b c
      omega
    calc (a + b - 1) / b ≤ (b * c + (b - 1)) / b := Nat.div_le_div_right h1
    _ = c + (b - 1) / b := Nat.mul_add_div (by omega) c (b - 1)
    _ = c := by rw [Nat.div_eq_of_lt (by omega), Nat.add_zero]

/-- Embedding of `num_chunks` (utils.py lines 21-24).  The batch is a
list of records over an arbitrary record type `R`; `sz r` is
`r.ByteSize()`.  `maxBytes` is the external constant
`MAX_BYTES_PER_BULK_RECORD`.  `none` models Python's
`ZeroDivisionError`, raised by `math.ceil(len(records) / num_of_bulk)`
when `num_of_bulk` is zero. -/
def num_chunks {R : Type} (maxBytes : Nat) (sz : R → Nat) (records : List R) : Option Nat :=
  let total_bytes := (records.map sz).sum
  let num_of_bulk := ceildiv total_bytes maxBytes
  if num_of_bulk = 0 then none
  else some (ceildiv records.length num_of_bulk)

/-- The dict comprehension of `bundle_records`:
`{(i, i + r): records[i : i + r] for i in range(0, len(records), r)}`
as an insertion-ordered association list.  For step `r ≥ 1` the loop
indices are `0, r, 2r, …`, i.e. `j * r` for
`j < ceil(len(records) / r)`. -/
def bundle_slices {R : Type} (records : List R) (r : Nat) : List ((Nat × Nat) × List R) :=
  (List.range (ceildiv records.length r)).map
    (fun j => ((j * r, j * r + r), (records.drop (j * r)).take r))

/-- Embedding of `bundle_records` (utils.py lines 27-33).  `none`
propagates the `ZeroDivisionError` of `num_chunks`; a zero step would
make `range(0, len(records), recs_per_msg)` raise `ValueError`, also
modelled as `none` (unreachable when `num_chunks` succeeds on a
non-empty batch). -/
def bundle_records {R : Type} (maxBytes : Nat) (sz : R → Nat) (records : List R) :
    Option (List ((Nat × Nat) × List R)) :=
  match num_chunks maxBytes sz records with
  | none => none
  | some recs_per_msg =>
    if recs_per_msg = 0 then none
    else some (bundle_slices records recs_per_msg)

/-- On a batch with positive total byte size the chunker succeeds:
`num_chunks` returns `recs_per_msg = ceil(N / ceil(total / maxBytes))`
and `bundle_records` returns the slices with that step. -/
lemma bundle_records_spec {R : Type} (maxBytes : Nat) (sz : R → Nat) (records : List R)
    (hB : 1 ≤ maxBytes) (hpos : 1 ≤ (records.map sz).sum) :
    1 ≤ records.length ∧
    ∃ r, num_chunks maxBytes sz records = some r ∧ 1 ≤ r ∧
      r = ceildiv records.length (ceildiv ((records.map sz).sum) maxBytes) ∧
      bundle_records maxBytes sz records = some (bundle_slices records r) := by
  have hne : records ≠ [] := by
    intro h
    rw [h] at hpos
    simp at hpos
  have hlen : 1 ≤ records.length := by
    cases records with
    | nil => exact absurd rfl hne
    | cons a l => simp
  have hk : 1 ≤ ceildiv ((records.map sz).sum) maxBytes := ceildiv_pos hpos hB
  have hr : 1 ≤ ceildiv records.length (ceildiv ((records.map sz).sum) maxBytes) :=
    ceildiv_pos hlen hk
  have hnum : num_chunks maxBytes sz records =
      some (ceildiv records.length (ceildiv ((records.map sz).sum) maxBytes)) := by
    unfold num_chunks
    simp only []
    rw [if_neg (by omega)]
  refine ⟨hlen, ceildiv records.length (ceildiv ((records.map sz).sum) maxBytes),
    hnum, hr, rfl, ?_⟩
  unfold bundle_records
  simp only [hnum]
  rw [if_neg (by omega)]

/-- Concatenating the slices `records[j*r : j*r + r]` for `j < c`
recovers `records` whenever `c * r` covers the whole list. -/
lemma join_slices {R : Type} (r : Nat) (_hr : 1 ≤ r) :
    ∀ (c : Nat) (l : List R), l.length ≤ c * r →
      ((List.range c).map (fun j => (l.drop (j * r)).take r)).flatten = l := by
  intro c
  induction c with
  | zero =>
    intro l hl
    have hnil : l = [] := List.eq_nil_of_length_eq_zero (by omega)
    simp [hnil]
  | succ m ih =>
    intro l hl
    rw [List.range_succ_eq_map, List.map_cons, List.map_map, List.flatten_cons]
    have h0 : (l.drop (0 * r)).take r = l.take r := by simp
    have hcomp : ((fun j => (l.drop (j * r)).take r) ∘ Nat.succ)
        = fun j => ((l.drop r).drop (j * r)).take r := by
      funext j
      simp only [Function.comp_apply, List.drop_drop]
      rw [Nat.succ_mul, Nat.add_comm]
    rw [h0, hcomp]
    have hrest : (l.drop r).length ≤ m * r := by
      rw [List.length_drop]
      have hsucc : (m + 1) * r = m * r + r := Nat.succ_mul m r
      omega
    rw [ih (l.drop r) hrest]
    exact List.take_append_drop r l

lemma join_bundle_slices {R : Type} (records : List R) (r : Nat) (hr : 1 ≤ r) :
    ((bundle_slices records r).map Prod.snd).flatten = records := by
  unfold bundle_slices
  rw [List.map_map]
  have hcomp : (Prod.snd ∘ fun j => ((j * r, j * r + r), (records.drop (j * r)).take r))
      = fun j => (records.drop (j * r)).take r := rfl
  rw [hcomp]
  exact join_slices r hr (ceildiv records.length r) records (le_ceildiv_mul _ hr)

/-- Sum of a constant-valued sizing function over a list. -/
lemma sum_map_const {R : Type} (sz : R → Nat) (s : Nat) (l : List R)
    (h : ∀ x ∈ l, sz x = s) : (l.map sz).sum = l.length * s := by
  induction l with
  | nil => simp
  | cons x xs ih =>
    have hx := h x (by simp)
    have ih' := ih (fun y hy => h y (by simp [hy]))
    simp only [List.map_cons, List.sum_cons, List.length_cons, hx, ih']
    rw [Nat.succ_mul]
    omega

/-- Core arithmetic bound behind the chunker heuristic: with `n ≥ 1`
records of uniform size `s ≥ 1` and ceiling `B ≥ 1`, the per-chunk
record count `ceil(n / ceil(n*s / B))` times `s` stays strictly below
`B + s` (but, as the counterexample shows, not below `B`). -/
lemma uniform_chunk_bound {B s n : Nat} (hB : 1 ≤ B) (hs : 1 ≤ s) (hn : 1 ≤ n) :
    ceildiv n (ceildiv (n * s) B) * s < B + s := by
  have hns : 1 ≤ n * s := Nat.mul_le_mul hn hs
  set k := ceildiv (n * s) B with hkdef
  have hk1 : 1 ≤ k := ceildiv_pos hns hB
  set r := ceildiv n k with hrdef
  have h1 : n * s ≤ k * B := le_ceildiv_mul (n * s) hB
  have h2 : r * k ≤ n + k - 1 := ceildiv_mul_le n hk1
  by_contra hcon
  push_neg at hcon
  have hstep : (B + s) * k ≤ r * s * k := Nat.mul_le_mul hcon (Nat.le_refl k)
  have hx : r * s * k = r * k * s := by
    rw [Nat.mul_assoc, Nat.mul_comm s k, ← Nat.mul_assoc]
  have hy : r * k * s ≤ (n + k - 1) * s := Nat.mul_le_mul h2 (Nat.le_refl s)
  have hz : (n + k - 1) * s + s = (n + k) * s := by
    have hnk : n + k - 1 + 1 = n + k := by omega
    calc (n + k - 1) * s + s = (n + k - 1) * s + 1 * s := by rw [Nat.one_mul]
    _ = (n + k - 1 + 1) * s := (Nat.add_mul _ _ _).symm
    _ = (n + k) * s := by rw [hnk]
  have hw : (n + k) * s = n * s + k * s := Nat.add_mul n k s
  have hv : (B + s) * k = B * k + s * k := Nat.add_mul B s k
  have hc1 : B * k = k * B := Nat.mul_comm B k
  have hc2 : s * k = k * s := Nat.mul_comm s k
  omega

/-- C1 counterexample: with ceiling 10 and three records of 6 bytes
each, the chunker puts two records in the first chunk, whose total of
12 bytes exceeds the ceiling. -/
theorem C1_counterexample :
    bundle_records 10 (id : Nat → Nat) [6, 6, 6] =
      some [((0, 2), [6, 6]), ((2, 4), [6])] ∧
    ¬ (∀ c ∈ [((0, 2), [6, 6]), ((2, 4), [6])],
        ((c.2).map (id : Nat → Nat)).sum ≤ 10) := by
  constructor
  · rfl
  · decide

/-- C1 (amended): the ≤-ceiling guarantee fails, but under the
uniform-size model — every record of serialized size `s ≥ 1` — every
chunk produced by `bundle_records` has total serialized size strictly
less than `maxBytes + s`. -/
theorem C1_amended {R : Type} (maxBytes s : Nat) (sz : R → Nat) (records : List R)
    (hB : 1 ≤ maxBytes) (hs : 1 ≤ s) (hne : records ≠ [])
    (huni : ∀ x ∈ records, sz x = s) :
    ∀ res, bundle_records maxBytes sz records = some res →
      ∀ c ∈ res, ((c.2).map sz).sum < maxBytes + s := by
  have hlen : 1 ≤ records.length := by
    cases records with
    | nil => exact absurd rfl hne
    | cons a l => simp
  have hsum : (records.map sz).sum = records.length * s := sum_map_const sz s records huni
  have hpos : 1 ≤ (records.map sz).sum := by
    rw [hsum]
    exact Nat.mul_le_mul hlen hs
  obtain ⟨_, r, hnum, hr1, hrval, hbun⟩ := bundle_records_spec maxBytes sz records hB hpos
  intro res hres
  rw [hbun] at hres
  have hres' : res = bundle_slices records r := (Option.some.inj hres).symm
  subst hres'
  intro c hc
  unfold bundle_slices at hc
  rw [List.mem_map] at hc
  obtain ⟨j, _, hcj⟩ := hc
  have hc2 : c.2 = (records.drop (j * r)).take r := by rw [← hcj]
  have hmem : ∀ x ∈ c.2, sz x = s := by
    intro x hx
    rw [hc2] at hx
    exact huni x (List.drop_subset _ _ (List.take_subset _ _ hx))
  have hsumc : ((c.2).map sz).sum = (c.2).length * s := sum_map_const sz s _ hmem
  have hlenc : (c.2).length ≤ r := by
    rw [hc2, List.length_take]
    omega
  have hbound : r * s < maxBytes + s := by
    rw [hrval, hsum]
    exact uniform_chunk_bound hB hs hlen
  calc ((c.2).map sz).sum = (c.2).length * s := hsumc
  _ ≤ r * s := Nat.mul_le_mul hlenc (Nat.le_refl s)
  _ < maxBytes + s := hbound

/-- Witness for C1 (amended) at ceiling 10 and records `[6, 6, 6]`. -/
theorem C1_amended_witness :
    ([6, 6].map (id : Nat → Nat)).sum < 10 + 6 := by
  have h := C1_amended 10 6 (id : Nat → Nat) [6, 6, 6]
    (by decide) (by decide) (by decide) (by decide)
  exact h [((0, 2), [6, 6]), ((2, 4), [6])] rfl ((0, 2), [6, 6]) (by decide)

/-- C2: for every batch with positive total serialized size the
chunker succeeds, and concatenating the produced groups in ascending
start-index order reproduces the original record sequence exactly. -/
theorem C2_roundtrip {R : Type} (maxBytes : Nat) (sz : R → Nat) (records : List R)
    (hB : 1 ≤ maxBytes) (hpos : 1 ≤ (records.map sz).sum) :
    (bundle_records maxBytes sz records).isSome = true ∧
    ∀ res, bundle_records maxBytes sz records = some res →
      (res.map Prod.snd).flatten = records := by
  obtain ⟨hlen, r, hnum, hr1, hrval, hbun⟩ := bundle_records_spec maxBytes sz records hB hpos
  constructor
  · rw [hbun]
    rfl
  · intro res hres
    rw [hbun] at hres
    have hres' : res = bundle_slices records r := (Option.some.inj hres).symm
    subst hres'
    exact join_bundle_slices records r hr1

/-- Witness for C2 at ceiling 10 and the single record `[5]`. -/
theorem C2_roundtrip_witness :
    bundle_records 10 (id : Nat → Nat) [5] = some [((0, 1), [5])] ∧
    (([((0, 1), [5])] : List ((Nat × Nat) × List Nat)).map Prod.snd).flatten = [5] := by
  have h := C2_roundtrip 10 (id : Nat → Nat) [5] (by decide) (by decide)
  exact ⟨rfl, h.2 [((0, 1), [5])] rfl⟩

/-- C9: on an empty batch, or one where every record serializes to
zero bytes, the chunker's divisor `ceil(total / maxBytes)` is zero and
both `num_chunks` and `bundle_records` fail with the modelled
division-by-zero error; with total serialized size at least 1 both are
total. -/
theorem C9_zero_division {R : Type} (maxBytes : Nat) (sz : R → Nat) (records : List R)
    (hB : 1 ≤ maxBytes) :
    ((records = [] ∨ ∀ x ∈ records, sz x = 0) →
      ceildiv ((records.map sz).sum) maxBytes = 0 ∧
      num_chunks maxBytes sz records = none ∧
      bundle_records maxBytes sz records = none) ∧
    (1 ≤ (records.map sz).sum →
      num_chunks maxBytes sz records ≠ none ∧
      bundle_records maxBytes sz records ≠ none) := by
  constructor
  · intro h
    have hzero : (records.map sz).sum = 0 := by
      rcases h with h | h
      · rw [h]
        rfl
      · apply List.sum_eq_zero
        intro x hx
        rw [List.mem_map] at hx
        obtain ⟨y, hy, hxy⟩ := hx
        rw [← hxy]
        exact h y hy
    have hk : ceildiv ((records.map sz).sum) maxBytes = 0 := by
      rw [hzero]
      exact ceildiv_zero_left maxBytes
    refine ⟨hk, ?_, ?_⟩
    · unfold num_chunks
      simp only []
      rw [if_pos hk]
    · have hnone : num_chunks maxBytes sz records = none := by
        unfold num_chunks
        simp only []
        rw [if_pos hk]
      unfold bundle_records
      simp only [hnone]
  · intro hpos
    obtain ⟨hlen, r, hnum, hr1, hrval, hbun⟩ := bundle_records_spec maxBytes sz records hB hpos
    constructor
    · rw [hnum]
      intro hcon
      cases hcon
    · rw [hbun]
      intro hcon
      cases hcon

/-- Witness for C9: ceiling 10; the all-zero batch `[0, 0]` fails, the
batch `[5]` succeeds. -/
theorem C9_zero_division_witness :
    num_chunks 10 (id : Nat → Nat) [0, 0] = none ∧
    bundle_records 10 (id : Nat → Nat) [0, 0] = none ∧
    num_chunks 10 (id : Nat → Nat) [5] ≠ none ∧
    bundle_records 10 (id : Nat → Nat) [5] ≠ none := by
  have h1 := C9_zero_division 10 (id : Nat → Nat) [0, 0] (by decide)
  have h2 := C9_zero_division 10 (id : Nat → Nat) [5] (by decide)
  have h1' := h1.1 (Or.inr (by decide))
  have h2' := h2.2 (by decide)
  exact ⟨h1'.2.1, h1'.2.2, h2'.1, h2'.2⟩

/-- C3 counterexample: ceiling 10, six records of sizes
`[10, 10, 10, 10, 0, 0]`.  `ceil(total / maxBytes) = ceil(40/10) = 4`
but `bundle_records` produces only `ceil(6 / ceil(6/4)) = 3` groups. -/
theorem C3_counterexample :
    bundle_records 10 (id : Nat → Nat) [10, 10, 10, 10, 0, 0] =
      some [((0, 2), [10, 10]), ((2, 4), [10, 10]), ((4, 6), [0, 0])] ∧
    ceildiv (([10, 10, 10, 10, 0, 0].map (id : Nat → Nat)).sum) 10 = 4 ∧
    ¬ ([((0, 2), [10, 10]), ((2, 4), [10, 10]), ((4, 6), [0, 0])] :
        List ((Nat × Nat) × List Nat)).length =
      ceildiv (([10, 10, 10, 10, 0, 0].map (id : Nat → Nat)).sum) 10 := by
  refine ⟨rfl, rfl, ?_⟩
  decide

/-- C3 (amended): with `k = ceil(total / maxBytes)` and
`r = ceil(N / k)` the recs-per-chunk value returned by `num_chunks`,
the number of groups equals `ceil(N / r)` — which is at most `k` but
can be smaller — the groups are the contiguous index windows
`(j*r, j*r + r)` in ascending order, and every group except possibly
the last has exactly `r` records. -/
theorem C3_amended {R : Type} (maxBytes : Nat) (sz : R → Nat) (records : List R)
    (hB : 1 ≤ maxBytes) (hpos : 1 ≤ (records.map sz).sum) :
    ∀ r, num_chunks maxBytes sz records = some r →
      ∀ res, bundle_records maxBytes sz records = some res →
        res.length = ceildiv records.length r ∧
        res.length ≤ ceildiv ((records.map sz).sum) maxBytes ∧
        res.map Prod.fst = (List.range res.length).map (fun j => (j * r, j * r + r)) ∧
        ∀ c ∈ res.dropLast, (c.2).length = r := by
  obtain ⟨hlen, r0, hnum, hr1, hrval, hbun⟩ := bundle_records_spec maxBytes sz records hB hpos
  intro r hr res hres
  rw [hnum] at hr
  have hrr : r = r0 := (Option.some.inj hr).symm
  subst hrr
  rw [hbun] at hres
  have hres' : res = bundle_slices records r := (Option.some.inj hres).symm
  subst hres'
  have hk : 1 ≤ ceildiv ((records.map sz).sum) maxBytes := ceildiv_pos hpos hB
  have hcount : (bundle_slices records r).length = ceildiv records.length r := by
    unfold bundle_slices
    rw [List.length_map, List.length_range]
  refine ⟨hcount, ?_, ?_, ?_⟩
  · rw [hcount, ceildiv_le_iff hr1]
    have h1 : records.length ≤ r * (ceildiv ((records.map sz).sum) maxBytes) := by
      rw [hrval]
      exact le_ceildiv_mul records.length hk
    rw [Nat.mul_comm] at h1
    exact h1
  · rw [hcount]
    unfold bundle_slices
    rw [List.map_map]
    rfl
  · intro c hc
    have hcountpos : 1 ≤ ceildiv records.length r := ceildiv_pos hlen hr1
    obtain ⟨m, hm⟩ : ∃ m, ceildiv records.length r = m + 1 :=
      ⟨ceildiv records.length r - 1, by omega⟩
    have hsplit : bundle_slices records r =
        ((List.range m).map
          (fun j => ((j * r, j * r + r), (records.drop (j * r)).take r))) ++
        [((m * r, m * r + r), (records.drop (m * r)).take r)] := by
      unfold bundle_slices
      rw [hm, List.range_succ, List.map_append, List.map_cons, List.map_nil]
    rw [hsplit, List.dropLast_concat] at hc
    rw [List.mem_map] at hc
    obtain ⟨j, hjr, hcj⟩ := hc
    rw [List.mem_range] at hjr
    have hc2 : c.2 = (records.drop (j * r)).take r := by rw [← hcj]
    have hcrv : ceildiv records.length r * r ≤ records.length + r - 1 :=
      ceildiv_mul_le records.length hr1
    rw [hm] at hcrv
    have hsucc : (m + 1) * r = m * r + r := Nat.succ_mul m r
    have hjm : j + 1 ≤ m := hjr
    have hmul : (j + 1) * r ≤ m * r := Nat.mul_le_mul hjm (Nat.le_refl r)
    have hjsucc : (j + 1) * r = j * r + r := Nat.succ_mul j r
    have hfit : j * r + r ≤ records.length := by omega
    rw [hc2, List.length_take, List.length_drop]
    omega

/-- Witness for C3 (amended) at ceiling 10 and records `[5, 5, 5]`:
total 15, so `k = 2`, `r = 2`, and 2 = ceil(3/2) groups ≤ k with the
non-final group holding exactly 2 records. -/
theorem C3_amended_witness :
    ([((0, 2), [5, 5]), ((2, 4), [5])] : List ((Nat × Nat) × List Nat)).length =
      ceildiv ([5, 5, 5].length) 2 ∧
    ([((0, 2), [5, 5]), ((2, 4), [5])] : List ((Nat × Nat) × List Nat)).length ≤
      ceildiv (([5, 5, 5].map (id : Nat → Nat)).sum) 10 ∧
    ∀ c ∈ ([((0, 2), [5, 5]), ((2, 4), [5])] :
        List ((Nat × Nat) × List Nat)).dropLast, (c.2).length = 2 := by
  have h := C3_amended 10 (id : Nat → Nat) [5, 5, 5] (by decide) (by decide)
    2 rfl [((0, 2), [5, 5]), ((2, 4), [5])] rfl
  exact ⟨h.1, h.2.1, h.2.2.2⟩

/-- Raw content of an `Embedding` (`arize/utils/types.py`,
outside the sources at hand).  Modelled from the spec: `raw-data: one
of { absent, single string, ordered sequence of strings }`; a fourth
constructor covers any other runtime type, for which
`get_value_embedding` falls through all its branches. -/
inductive EmbData where
  | noneData
  | strData (s : String)
  | tokenData (l : List String)
  | otherData
deriving DecidableEq

/-- Modelled from the spec: the `Embedding` dataclass of
`arize/utils/types.py` (not under the sources at hand): `a numeric
vector plus optional raw content (text/tokens) and optional source
link`.  Float vector entries are abstracted as `Int` payloads — no
claim computes on them. -/
structure Embedding where
  vector : List Int
  data : EmbData
  link_to_data : Option String
deriving DecidableEq

/-- Wire embedding payload `pb2.Embedding`: vector, optional token
array (`raw_data.tokenArray.tokens`), and link wrapped in a
`StringValue`. -/
structure ProtoEmbedding where
  vector : List Int
  tokens : Option (List String)
  link_to_data : Option String
deriving DecidableEq

/-- Wire scalar `pb2.Value`: a discriminated union with exactly one
payload active. -/
inductive Value where
  | string (s : String)
  | int (n : Int)
  | double (x : Int)
  | embedding (e : Option ProtoEmbedding)
deriving DecidableEq

/-- Embedding of `get_value_embedding` (utils.py lines 94-116): token
list, single string (wrapped into a one-element token list), or no
raw data; any other `data` falls through every branch and the
function returns `None`. -/
def get_value_embedding (val : Embedding) : Option ProtoEmbedding :=
  match val.data with
  | .tokenData l => some ⟨val.vector, some l, val.link_to_data⟩
  | .strData s => some ⟨val.vector, some [s], val.link_to_data⟩
  | .noneData => some ⟨val.vector, none, val.link_to_data⟩
  | .otherData => none

/-- A Python scalar as seen by `convert_element` / `get_value_object`:
null, str, bool, int, float (with an explicit NaN flag; the non-NaN
payload is abstracted as `Int`), an `Embedding`, an already-encoded
`pb2.Value`, or a value of any other runtime type (carrying its type
name). -/
inductive PyScalar where
  | pyNone
  | pyStr (s : String)
  | pyBool (b : Bool)
  | pyInt (n : Int)
  | pyFloat (isNan : Bool) (x : Int)
  | pyEmb (e : Embedding)
  | pyProtoValue (v : Value)
  | pyOther (tyName : String)
deriving DecidableEq

/-- An input value: either a scalar, or a value whose native
conversion (`tolist()`) yields a list of scalars — as produced by
pandas series/dataframe element access. -/
inductive PyVal where
  | scalar (v : PyScalar)
  | list (l : List PyScalar)
deriving DecidableEq

/-- `pd.isna` on a scalar: true exactly for null and NaN. -/
def pd_isna : PyScalar → Bool
  | .pyNone => true
  | .pyFloat isNan _ => isNan
  | _ => false

/-- Python's `type(value)` name, used in the `TypeError` message of
`get_value_object`. -/
def pyTypeName : PyVal → String
  | .scalar .pyNone => "NoneType"
  | .scalar (.pyStr _) => "str"
  | .scalar (.pyBool _) => "bool"
  | .scalar (.pyInt _) => "int"
  | .scalar (.pyFloat _ _) => "float"
  | .scalar (.pyEmb _) => "Embedding"
  | .scalar (.pyProtoValue _) => "Value"
  | .scalar (.pyOther tyName) => tyName
  | .list _ => "list"

/-- Embedding of `convert_element` (utils.py lines 47-56):
`val = getattr(value, "tolist", lambda: value)()`, then a list is
unwrapped to its first element (or `None` when empty), then a
null/NaN result is mapped to `None`. -/
def convert_element (value : PyVal) : PyScalar :=
  let val : PyScalar :=
    match value with
    | .scalar v => v
    | .list l =>
      match l with
      | [] => .pyNone
      | x :: _ => x
  if pd_isna val then .pyNone else val

/-- The `TypeError` raised by `get_value_object`: its message names
the dimension (the `name` argument) and the runtime type of the
offending original value. -/
structure TypeErr where
  dimension : String
  tyName : String
deriving DecidableEq

/-- Embedding of `get_value_object` (utils.py lines 71-91): an
already-encoded `pb2.Value` passes through; otherwise the converted
element is dispatched on its runtime type — str and bool to a
string-tagged value (bool via `str(val)`), int to an int-tagged
value, float to a double-tagged value, `Embedding` to an
embedding-tagged value; `None` yields no value; anything else raises
`TypeError`. -/
def get_value_object (name : String) (value : PyVal) : Except TypeErr (Option Value) :=
  match value with
  | .scalar (.pyProtoValue v) => .ok (some v)
  | _ =>
    match convert_element value with
    | .pyNone => .ok none
    | .pyStr s => .ok (some (.string s))
    | .pyBool b => .ok (some (.string (if b then "True" else "False")))
    | .pyInt n => .ok (some (.int n))
    | .pyFloat _ x => .ok (some (.double x))
    | .pyEmb e => .ok (some (.embedding (get_value_embedding e)))
    | .pyProtoValue _ => .error ⟨name, pyTypeName value⟩
    | .pyOther _ => .error ⟨name, pyTypeName value⟩

/-- C6: the value encoder drops null/NaN scalars silently, encodes
str and bool as string-tagged values (bool via its string form), int
as an int-tagged value, float as a double-tagged value, `Embedding`
as an embedding-tagged value, and raises a `TypeError` naming the
field and the offending runtime type on anything else. -/
theorem C6_value_encoder (name : String) :
    (∀ v : PyScalar, pd_isna v = true →
      get_value_object name (.scalar v) = .ok none) ∧
    (∀ s, get_value_object name (.scalar (.pyStr s)) = .ok (some (.string s))) ∧
    (∀ b, get_value_object name (.scalar (.pyBool b)) =
      .ok (some (.string (if b then "True" else "False")))) ∧
    (∀ n, get_value_object name (.scalar (.pyInt n)) = .ok (some (.int n))) ∧
    (∀ x, get_value_object name (.scalar (.pyFloat false x)) = .ok (some (.double x))) ∧
    (∀ e, get_value_object name (.scalar (.pyEmb e)) =
      .ok (some (.embedding (get_value_embedding e)))) ∧
    (∀ tyName, get_value_object name (.scalar (.pyOther tyName)) =
      .error ⟨name, tyName⟩) := by
  refine ⟨?_, fun s => rfl, fun b => rfl, fun n => rfl, fun x => rfl, fun e => rfl,
    fun tyName => rfl⟩
  intro v hv
  cases v with
  | pyNone => rfl
  | pyFloat isNan x =>
    cases isNan with
    | false => exact absurd hv (by simp [pd_isna])
    | true => rfl
  | pyStr s => exact absurd hv (by simp [pd_isna])
  | pyBool b => exact absurd hv (by simp [pd_isna])
  | pyInt n => exact absurd hv (by simp [pd_isna])
  | pyEmb e => exact absurd hv (by simp [pd_isna])
  | pyProtoValue v => exact absurd hv (by simp [pd_isna])
  | pyOther tyName => exact absurd hv (by simp [pd_isna])

/-- Witness for C6 at the field name "f" and the null scalar. -/
theorem C6_value_encoder_witness :
    pd_isna .pyNone = true ∧
    get_value_object "f" (.scalar .pyNone) = .ok none := by
  exact ⟨rfl, (C6_value_encoder "f").1 .pyNone rfl⟩

/-- C10: a list-converting input is unwrapped to its first element —
silently discarding the remaining elements — or to `None` when the
list is empty; a null/NaN first element maps to `None`; consequently
`get_value_object` encodes a multi-element list from its first
element instead of rejecting it. -/
theorem C10_convert_element (name : String) :
    convert_element (.list []) = .pyNone ∧
    (∀ x l, pd_isna x = false → convert_element (.list (x :: l)) = x) ∧
    (∀ x l, pd_isna x = true → convert_element (.list (x :: l)) = .pyNone) ∧
    (∀ n l, get_value_object name (.list (.pyInt n :: l)) = .ok (some (.int n))) := by
  refine ⟨rfl, ?_, ?_, fun n l => rfl⟩
  · intro x l hx
    unfold convert_element
    simp only [hx]
    rfl
  · intro x l hx
    unfold convert_element
    simp only [hx]
    rfl

/-- Witness for C10: the two-element list `[5, 6]` is encoded from
its first element. -/
theorem C10_convert_element_witness :
    pd_isna (.pyInt 5) = false ∧
    convert_element (.list [.pyInt 5, .pyInt 6]) = .pyInt 5 ∧
    get_value_object "f" (.list [.pyInt 5, .pyInt 6]) = .ok (some (.int 5)) := by
  have h := C10_convert_element "f"
  exact ⟨rfl, h.2.1 (.pyInt 5) [.pyInt 6] rfl, h.2.2.2 5 [.pyInt 6]⟩

/-- Embedding of `is_timestamp_in_range` (utils.py lines 134-137).
`maxPastYears` and `maxFutureYears` are the external constants
`MAX_PAST_YEARS_FROM_CURRENT_TIME` and
`MAX_FUTURE_YEARS_FROM_CURRENT_TIME`. -/
def is_timestamp_in_range (maxPastYears maxFutureYears : Nat) (now ts : Int) : Bool :=
  let max_time : Int := now + (maxFutureYears * 365 * 24 * 60 * 60 : Nat)
  let min_time : Int := now - (maxPastYears * 365 * 24 * 60 * 60 : Nat)
  decide (min_time ≤ ts) && decide (ts ≤ max_time)

/-- C7: the timestamp check accepts `ts` iff
`now - maxPastYears*365*24*3600 ≤ ts ≤ now + maxFutureYears*365*24*3600`,
both bounds inclusive — the extreme past/future seconds are accepted
and one second beyond each bound is rejected. -/
theorem C7_timestamp_range (maxPastYears maxFutureYears : Nat) (now ts : Int) :
    (is_timestamp_in_range maxPastYears maxFutureYears now ts = true ↔
      (now - (maxPastYears : Int) * 365 * 24 * 60 * 60 ≤ ts ∧
       ts ≤ now + (maxFutureYears : Int) * 365 * 24 * 60 * 60)) ∧
    is_timestamp_in_range maxPastYears maxFutureYears now
      (now - (maxPastYears : Int) * 365 * 24 * 60 * 60) = true ∧
    is_timestamp_in_range maxPastYears maxFutureYears now
      (now - (maxPastYears : Int) * 365 * 24 * 60 * 60 - 1) = false ∧
    is_timestamp_in_range maxPastYears maxFutureYears now
      (now + (maxFutureYears : Int) * 365 * 24 * 60 * 60) = true ∧
    is_timestamp_in_range maxPastYears maxFutureYears now
      (now + (maxFutureYears : Int) * 365 * 24 * 60 * 60 + 1) = false := by
  unfold is_timestamp_in_range
  simp only [Bool.and_eq_true, decide_eq_true_eq, Bool.and_eq_false_iff,
    decide_eq_false_iff_not]
  refine ⟨?_, ?_, ?_, ?_, ?_⟩
  · constructor
    · intro h
      push_cast at h ⊢
      omega
    · intro h
      push_cast at h ⊢
      omega
  · push_cast
    omega
  · left
    push_cast
    omega
  · push_cast
    omega
  · right
    push_cast
    omega

/-- Embedding-role column triple (`EmbeddingColumnNames` of
`arize/utils/types.py`, outside the sources at hand; fields as used by
the test fixtures). -/
structure EmbeddingColumnNames where
  vector_column_name : String
  data_column_name : Option String := none
  link_to_data_column_name : Option String := none
deriving DecidableEq

/-- Object-detection column triple (`ObjectDetectionColumnNames` of
`arize/utils/types.py`, outside the sources at hand). -/
structure ObjectDetectionColumnNames where
  bounding_boxes_coordinates_column_name : String
  categories_column_name : String
  scores_column_name : Option String := none
deriving DecidableEq

/-- Modelled from the spec: the `Schema` dataclass of
`arize/utils/types.py` (not under the sources at hand): `Mapping from
logical roles to physical column names … a pure lookup table, no
data`.  Dictionary-valued roles are insertion-ordered association
lists, matching Python dict iteration order. -/
structure Schema where
  prediction_id_column_name : Option String := none
  timestamp_column_name : Option String := none
  prediction_label_column_name : Option String := none
  prediction_score_column_name : Option String := none
  actual_label_column_name : Option String := none
  actual_score_column_name : Option String := none
  feature_column_names : Option (List String) := none
  tag_column_names : Option (List String) := none
  embedding_feature_column_names : Option (List (String × EmbeddingColumnNames)) := none
  shap_values_column_names : Option (List (String × String)) := none
  prompt_column_names : Option EmbeddingColumnNames := none
  response_column_names : Option EmbeddingColumnNames := none
  object_detection_prediction_column_names : Option ObjectDetectionColumnNames := none
  object_detection_actual_column_names : Option ObjectDetectionColumnNames := none
deriving DecidableEq

/-- Python dict assignment `d[k] = v` on an insertion-ordered
association list with unique keys: replace in place if the key
exists, else append. -/
def dictInsert {α : Type} : List (String × α) → String → α → List (String × α)
  | [], k, v => [(k, v)]
  | p :: rest, k, v =>
    if p.1 = k then (k, v) :: rest else p :: dictInsert rest k v

/-- The loop `for k, v in entries: d[k] = v`. -/
def dictUpdate {α : Type} (d entries : List (String × α)) : List (String × α) :=
  entries.foldl (fun acc p => dictInsert acc p.1 p.2) d

/-- Python dict lookup `d.get(k)`. -/
def dictGet {α : Type} : List (String × α) → String → Option α
  | [], _ => none
  | p :: rest, k => if p.1 = k then some p.2 else dictGet rest k

/-- Lookup through an optional dictionary (a `None` schema field has
no entries). -/
def schemaDictGet {α : Type} (d : Option (List (String × α))) (k : String) : Option α :=
  match d with
  | none => none
  | some l => dictGet l k

/-- First-some choice, `Option.or` spelt out. -/
def optOr {α : Type} : Option α → Option α → Option α
  | some a, _ => some a
  | none, b => b

/-- One field of the `changes` comprehension plus `schema1.replace`:
the overlay value wins exactly when it is not `None`. -/
def updField {α : Type} (base new : Option α) : Option α :=
  match new with
  | some v => some v
  | none => base

lemma dictGet_dictInsert {α : Type} (d : List (String × α)) (k : String) (v : α)
    (k' : String) :
    dictGet (dictInsert d k v) k' = if k = k' then some v else dictGet d k' := by
  induction d with
  | nil =>
    simp only [dictInsert, dictGet]
  | cons p rest ih =>
    by_cases h1 : p.1 = k
    · rw [dictInsert, if_pos h1]
      by_cases h2 : k = k'
      · rw [dictGet, if_pos h2, if_pos h2]
      · rw [dictGet, if_neg h2, if_neg h2, dictGet, if_neg (by rw [h1]; exact h2)]
    · rw [dictInsert, if_neg h1]
      by_cases h2 : p.1 = k'
      · have hk : ¬ k = k' := by
          intro hk
          exact h1 (by rw [hk]; exact h2)
        rw [dictGet, if_pos h2, if_neg hk, dictGet, if_pos h2]
      · rw [dictGet, if_neg h2, ih]
        by_cases h3 : k = k'
        · rw [if_pos h3, if_pos h3]
        · rw [if_neg h3, if_neg h3, dictGet, if_neg h2]

lemma dictGet_eq_none_of_not_mem {α : Type} (d : List (String × α)) (k : String)
    (h : k ∉ d.map Prod.fst) : dictGet d k = none := by
  induction d with
  | nil => rfl
  | cons p rest ih =>
    rw [List.map_cons, List.mem_cons] at h
    push_neg at h
    rw [dictGet, if_neg (fun hc => h.1 hc.symm)]
    exact ih h.2

/-- Lookup after a bulk update: an entry key wins over the base
dictionary, provided the entry keys are unique (always true of a
Python dict). -/
lemma dictGet_dictUpdate {α : Type} (d entries : List (String × α)) (k : String)
    (hnd : (entries.map Prod.fst).Nodup) :
    dictGet (dictUpdate d entries) k = optOr (dictGet entries k) (dictGet d k) := by
  induction entries generalizing d with
  | nil =>
    simp only [dictUpdate, List.foldl_nil, dictGet, optOr]
  | cons p rest ih =>
    rw [List.map_cons, List.nodup_cons] at hnd
    have hupd : dictUpdate d (p :: rest) = dictUpdate (dictInsert d p.1 p.2) rest := rfl
    rw [hupd, ih _ hnd.2, dictGet_dictInsert]
    by_cases h : p.1 = k
    · have hnone : dictGet rest k = none :=
        dictGet_eq_none_of_not_mem rest k (by rw [← h]; exact hnd.1)
      rw [dictGet, if_pos h, if_pos h, hnone]
      rfl
    · rw [dictGet, if_neg h, if_neg h]

/-- State of a dictionary-valued field of the base schema after the
merge loop: the loop writes through the alias exactly when the base
field already held a dictionary and the overlay field supplied one. -/
def mergedDictField {α : Type} (o1 o2 : Option (List (String × α))) :
    Option (List (String × α)) :=
  match o1, o2 with
  | some d1, some d2 => some (dictUpdate d1 d2)
  | e1, _ => e1

lemma mergedDictField_eq_left {α : Type} (o1 o2 : Option (List (String × α)))
    (h : o1 = none ∨ o2 = none) : mergedDictField o1 o2 = o1 := by
  rcases h with h | h
  · subst h
    rfl
  · subst h
    cases o1 with
    | none => rfl
    | some d1 => rfl

/-- Embedding of `overwrite_schema_fields` (utils.py lines 156-206).
The first component is the returned schema; the second is the state
of `schema1` after the call.  The source aliases `schema1`'s
embedding and shap dictionaries (`emb_feat_col_names =
schema1.embedding_feature_column_names` followed by in-place
`emb_feat_col_names[k] = v`), so when both schemas carry a
dictionary, `schema1`'s dictionary is mutated and gains the overlay
entries; a fresh `{}` is used only when `schema1`'s field is `None`. -/
def overwrite_schema_fields (schema1 schema2 : Schema) : Schema × Schema :=
  let schema : Schema :=
    { prediction_id_column_name :=
        updField schema1.prediction_id_column_name schema2.prediction_id_column_name,
      timestamp_column_name :=
        updField schema1.timestamp_column_name schema2.timestamp_column_name,
      prediction_label_column_name :=
        updField schema1.prediction_label_column_name schema2.prediction_label_column_name,
      prediction_score_column_name :=
        updField schema1.prediction_score_column_name schema2.prediction_score_column_name,
      actual_label_column_name :=
        updField schema1.actual_label_column_name schema2.actual_label_column_name,
      actual_score_column_name :=
        updField schema1.actual_score_column_name schema2.actual_score_column_name,
      feature_column_names :=
        updField schema1.feature_column_names schema2.feature_column_names,
      tag_column_names :=
        updField schema1.tag_column_names schema2.tag_column_names,
      embedding_feature_column_names := schema1.embedding_feature_column_names,
      shap_values_column_names := schema1.shap_values_column_names,
      prompt_column_names := schema1.prompt_column_names,
      response_column_names := schema1.response_column_names,
      object_detection_prediction_column_names :=
        updField schema1.object_detection_prediction_column_names
          schema2.object_detection_prediction_column_names,
      object_detection_actual_column_names :=
        updField schema1.object_detection_actual_column_names
          schema2.object_detection_actual_column_names }
  let schema :=
    match schema2.embedding_feature_column_names with
    | none => schema
    | some d2 =>
      let merged := dictUpdate (schema1.embedding_feature_column_names.getD []) d2
      { schema with embedding_feature_column_names := some merged }
  let schema :=
    { schema with
      prompt_column_names := updField schema.prompt_column_names schema2.prompt_column_names,
      response_column_names :=
        updField schema.response_column_names schema2.response_column_names }
  let schema :=
    match schema2.shap_values_column_names with
    | none => schema
    | some d2 =>
      let merged := dictUpdate (schema1.shap_values_column_names.getD []) d2
      { schema with shap_values_column_names := some merged }
  let schema1After :=
    { schema1 with
      embedding_feature_column_names :=
        mergedDictField schema1.embedding_feature_column_names
          schema2.embedding_feature_column_names,
      shap_values_column_names :=
        mergedDictField schema1.shap_values_column_names
          schema2.shap_values_column_names }
  (schema, schema1After)

/-- C4 counterexample: with `schema1` carrying shap dictionary
`{"Y": "y"}` and `schema2` carrying `{"X": "x"}`, the call mutates
`schema1`, whose shap dictionary afterwards holds both entries. -/
theorem C4_counterexample :
    ((overwrite_schema_fields
        { shap_values_column_names := some [("Y", "y")] }
        { shap_values_column_names := some [("X", "x")] }).2).shap_values_column_names =
      some [("Y", "y"), ("X", "x")] ∧
    (overwrite_schema_fields
        { shap_values_column_names := some [("Y", "y")] }
        { shap_values_column_names := some [("X", "x")] }).2 ≠
      ({ shap_values_column_names := some [("Y", "y")] } : Schema) := by
  refine ⟨rfl, ?_⟩
  decide

/-- C4 (amended): the merge returns a new Schema value and the base
schema survives unchanged only while no dictionary merge writes
through the alias — i.e. whenever, for each of the embedding-feature
and shap dictionaries, the base's field or the overlay's field is
`None`.  (When both are set the base schema's dictionary is mutated
in place, as the counterexample shows; the overlay schema is never
modified.) -/
theorem C4_amended (schema1 schema2 : Schema)
    (hemb : schema1.embedding_feature_column_names = none ∨
      schema2.embedding_feature_column_names = none)
    (hshap : schema1.shap_values_column_names = none ∨
      schema2.shap_values_column_names = none) :
    (overwrite_schema_fields schema1 schema2).2 = schema1 := by
  unfold overwrite_schema_fields
  simp only []
  rw [mergedDictField_eq_left _ _ hemb, mergedDictField_eq_left _ _ hshap]

/-- Witness for C4 (amended): a base schema with no shap dictionary
is left unchanged. -/
theorem C4_amended_witness :
    (overwrite_schema_fields
        ({ prediction_id_column_name := some "pid" } : Schema)
        ({ shap_values_column_names := some [("X", "x")] } : Schema)).2 =
      ({ prediction_id_column_name := some "pid" } : Schema) := by
  exact C4_amended _ _ (Or.inl rfl) (Or.inl rfl)

/-- Modelled from the spec: `Schema.has_actual_columns` of
`arize/utils/types.py` (not under the sources at hand) — whether the
schema declares actual-outcome columns. -/
def Schema.has_actual_columns (s : Schema) : Bool :=
  s.actual_label_column_name.isSome || s.actual_score_column_name.isSome ||
    s.object_detection_actual_column_names.isSome

/-- Modelled from the spec: `Schema.has_feature_importance_columns`
of `arize/utils/types.py` (not under the sources at hand) — whether
the schema declares feature-importance (shap value) columns. -/
def Schema.has_feature_importance_columns (s : Schema) : Bool :=
  s.shap_values_column_names.isSome

/-- Modelled from the spec: `Schema.has_prediction_columns` of
`arize/utils/types.py` (not under the sources at hand) — whether the
schema declares prediction columns. -/
def Schema.has_prediction_columns (s : Schema) : Bool :=
  s.prediction_label_column_name.isSome || s.prediction_score_column_name.isSome ||
    s.object_detection_prediction_column_names.isSome

/-- Embedding of `is_delayed_schema` (utils.py lines 209-223). -/
def is_delayed_schema (schema : Schema) : Bool :=
  (schema.has_actual_columns || schema.has_feature_importance_columns) &&
    !schema.has_prediction_columns

/-- C8: a schema is delayed iff it declares actual-outcome columns or
feature-importance columns, and does not declare prediction
columns. -/
theorem C8_is_delayed (schema : Schema) :
    is_delayed_schema schema = true ↔
      ((schema.has_actual_columns = true ∨
        schema.has_feature_importance_columns = true) ∧
       schema.has_prediction_columns = false) := by
  unfold is_delayed_schema
  simp [Bool.and_eq_true, Bool.or_eq_true, Bool.not_eq_true']

/-- Value of a dictionary-valued field in the schema returned by the
merge: untouched when the overlay does not set it, else the update of
the base's dictionary (or a fresh one) with the overlay entries. -/
def mergeResultField {α : Type} (o1 o2 : Option (List (String × α))) :
    Option (List (String × α)) :=
  match o2 with
  | none => o1
  | some d2 => some (dictUpdate (o1.getD []) d2)

/-- The returned schema of `overwrite_schema_fields`, written
field-by-field. -/
lemma overwrite_fst_eq (schema1 schema2 : Schema) :
    (overwrite_schema_fields schema1 schema2).1 =
      { prediction_id_column_name :=
          updField schema1.prediction_id_column_name schema2.prediction_id_column_name,
        timestamp_column_name :=
          updField schema1.timestamp_column_name schema2.timestamp_column_name,
        prediction_label_column_name :=
          updField schema1.prediction_label_column_name
            schema2.prediction_label_column_name,
        prediction_score_column_name :=
          updField schema1.prediction_score_column_name
            schema2.prediction_score_column_name,
        actual_label_column_name :=
          updField schema1.actual_label_column_name schema2.actual_label_column_name,
        actual_score_column_name :=
          updField schema1.actual_score_column_name schema2.actual_score_column_name,
        feature_column_names :=
          updField schema1.feature_column_names schema2.feature_column_names,
        tag_column_names :=
          updField schema1.tag_column_names schema2.tag_column_names,
        embedding_feature_column_names :=
          mergeResultField schema1.embedding_feature_column_names
            schema2.embedding_feature_column_names,
        shap_values_column_names :=
          mergeResultField schema1.shap_values_column_names
            schema2.shap_values_column_names,
        prompt_column_names :=
          updField schema1.prompt_column_names schema2.prompt_column_names,
        response_column_names :=
          updField schema1.response_column_names schema2.response_column_names,
        object_detection_prediction_column_names :=
          updField schema1.object_detection_prediction_column_names
            schema2.object_detection_prediction_column_names,
        object_detection_actual_column_names :=
          updField schema1.object_detection_actual_column_names
            schema2.object_detection_actual_column_names } := by
  unfold overwrite_schema_fields mergeResultField
  cases h2e : schema2.embedding_feature_column_names <;>
    cases h2s : schema2.shap_values_column_names <;> rfl

lemma updField_eq_ite {α : Type} (base new : Option α) :
    updField base new = if new.isSome then new else base := by
  cases new <;> rfl

lemma mergeResultField_isSome {α : Type} (o1 o2 : Option (List (String × α))) :
    (mergeResultField o1 o2).isSome = (o1.isSome || o2.isSome) := by
  cases o2 <;> cases o1 <;> rfl

lemma schemaDictGet_mergeResultField {α : Type} (o1 o2 : Option (List (String × α)))
    (k : String) (hnd : ((o2.getD []).map Prod.fst).Nodup) :
    schemaDictGet (mergeResultField o1 o2) k =
      optOr (schemaDictGet o2 k) (schemaDictGet o1 k) := by
  cases o2 with
  | none => rfl
  | some d2 =>
    cases o1 with
    | none =>
      simp only [mergeResultField, schemaDictGet, Option.getD]
      rw [dictGet_dictUpdate _ _ _ (by simpa using hnd)]
      rfl
    | some d1 =>
      simp only [mergeResultField, schemaDictGet, Option.getD]
      rw [dictGet_dictUpdate _ _ _ (by simpa using hnd)]

/-- C5: the merged schema maps every scalar role to the overlay's
value when set, else the base's; its embedding-feature and shap
dictionaries are present when either side carries one and look up as
the key-by-key union with the overlay winning on collision; its
prompt/response fields are wholesale-replaced when the overlay sets
them. -/
theorem C5_schema_merge (schema1 schema2 : Schema)
    (hembnd : ((schema2.embedding_feature_column_names.getD []).map Prod.fst).Nodup)
    (hshapnd : ((schema2.shap_values_column_names.getD []).map Prod.fst).Nodup) :
    ((overwrite_schema_fields schema1 schema2).1).prediction_id_column_name =
      (if schema2.prediction_id_column_name.isSome then schema2.prediction_id_column_name
       else schema1.prediction_id_column_name) ∧
    ((overwrite_schema_fields schema1 schema2).1).timestamp_column_name =
      (if schema2.timestamp_column_name.isSome then schema2.timestamp_column_name
       else schema1.timestamp_column_name) ∧
    ((overwrite_schema_fields schema1 schema2).1).prediction_label_column_name =
      (if schema2.prediction_label_column_name.isSome then
        schema2.prediction_label_column_name
       else schema1.prediction_label_column_name) ∧
    ((overwrite_schema_fields schema1 schema2).1).prediction_score_column_name =
      (if schema2.prediction_score_column_name.isSome then
        schema2.prediction_score_column_name
       else schema1.prediction_score_column_name) ∧
    ((overwrite_schema_fields schema1 schema2).1).actual_label_column_name =
      (if schema2.actual_label_column_name.isSome then schema2.actual_label_column_name
       else schema1.actual_label_column_name) ∧
    ((overwrite_schema_fields schema1 schema2).1).actual_score_column_name =
      (if schema2.actual_score_column_name.isSome then schema2.actual_score_column_name
       else schema1.actual_score_column_name) ∧
    ((overwrite_schema_fields schema1 schema2).1).feature_column_names =
      (if schema2.feature_column_names.isSome then schema2.feature_column_names
       else schema1.feature_column_names) ∧
    ((overwrite_schema_fields schema1 schema2).1).tag_column_names =
      (if schema2.tag_column_names.isSome then schema2.tag_column_names
       else schema1.tag_column_names) ∧
    ((overwrite_schema_fields schema1 schema2).1).object_detection_prediction_column_names =
      (if schema2.object_detection_prediction_column_names.isSome then
        schema2.object_detection_prediction_column_names
       else schema1.object_detection_prediction_column_names) ∧
    ((overwrite_schema_fields schema1 schema2).1).object_detection_actual_column_names =
      (if schema2.object_detection_actual_column_names.isSome then
        schema2.object_detection_actual_column_names
       else schema1.object_detection_actual_column_names) ∧
    ((overwrite_schema_fields schema1 schema2).1).prompt_column_names =
      (if schema2.prompt_column_names.isSome then schema2.prompt_column_names
       else schema1.prompt_column_names) ∧
    ((overwrite_schema_fields schema1 schema2).1).response_column_names =
      (if schema2.response_column_names.isSome then schema2.response_column_names
       else schema1.response_column_names) ∧
    ((overwrite_schema_fields schema1 schema2).1).embedding_feature_column_names.isSome =
      (schema1.embedding_feature_column_names.isSome ||
       schema2.embedding_feature_column_names.isSome) ∧
    ((overwrite_schema_fields schema1 schema2).1).shap_values_column_names.isSome =
      (schema1.shap_values_column_names.isSome ||
       schema2.shap_values_column_names.isSome) ∧
    (∀ key, schemaDictGet
        ((overwrite_schema_fields schema1 schema2).1).embedding_feature_column_names key =
      optOr (schemaDictGet schema2.embedding_feature_column_names key)
        (schemaDictGet schema1.embedding_feature_column_names key)) ∧
    (∀ key, schemaDictGet
        ((overwrite_schema_fields schema1 schema2).1).shap_values_column_names key =
      optOr (schemaDictGet schema2.shap_values_column_names key)
        (schemaDictGet schema1.shap_values_column_names key)) := by
  rw [overwrite_fst_eq]
  refine ⟨updField_eq_ite _ _, updField_eq_ite _ _, updField_eq_ite _ _,
    updField_eq_ite _ _, updField_eq_ite _ _, updField_eq_ite _ _, updField_eq_ite _ _,
    updField_eq_ite _ _, updField_eq_ite _ _, updField_eq_ite _ _, updField_eq_ite _ _,
    updField_eq_ite _ _, mergeResultField_isSome _ _, mergeResultField_isSome _ _,
    ?_, ?_⟩
  · intro key
    exact schemaDictGet_mergeResultField _ _ key hembnd
  · intro key
    exact schemaDictGet_mergeResultField _ _ key hshapnd

/-- Witness for C5: overlay shap `{"X": "x"}` merged into base shap
`{"Y": "y"}` yields a dictionary holding both entries, the overlay's
value winning for "X". -/
theorem C5_schema_merge_witness :
    schemaDictGet ((overwrite_schema_fields
        { shap_values_column_names := some [("Y", "y")] }
        { shap_values_column_names := some [("X", "x")] }).1).shap_values_column_names
      "X" = some "x" ∧
    schemaDictGet ((overwrite_schema_fields
        { shap_values_column_names := some [("Y", "y")] }
        { shap_values_column_names := some [("X", "x")] }).1).shap_values_column_names
      "Y" = some "y" := by
  obtain ⟨-, -, -, -, -, -, -, -, -, -, -, -, -, -, -, hshap⟩ :=
    C5_schema_merge
      { shap_values_column_names := some [("Y", "y")] }
      { shap_values_column_names := some [("X", "x")] }
      (by decide) (by decide)
  constructor
  · exact (hshap "X").trans (by decide)
  · exact (hshap "Y").trans (by decide)

end Arize
